import Mathlib

/-!
Verification development for the raster-overlap pipeline in src/main2.cpp.

The program loads two georeferenced rasters, scans the alpha (validity) mask
of each for the bounding box of opaque pixels, projects that box to
geographic coordinates with the 6-parameter affine transform, builds a
closed 5-point rectangular ring per raster, intersects the two rings with
the GEOS collaborator, and serializes the envelope of the intersection as a
GeoJSON FeatureCollection using the nlohmann json library.

Pure functions of the program are embedded as Lean functions over Nat, Int
and Rat (machine doubles are modelled as rationals: the claims under check
concern the algebraic formulas and the document structure, not IEEE
rounding).  The two external collaborators (GDAL raster access and the GEOS
geometry engine) are modelled by explicit inputs and by definitions that
follow their documented contracts; each such definition says so in its doc
comment.
-/

namespace RasterOverlap

/-! ## Validity mask scanner (src/main2.cpp lines 55-84)

The mask is modelled as a function from the row-major pixel index to the
byte value read from the alpha band.  The scan loop of getValidGeometry
iterates y from 0 to height-1 and x from 0 to width-1, so the fold below
runs over exactly that pixel sequence in the same order. -/

/-- ScanState mirrors the loop-local variables of the bounds scan:
foundData, dataMinX, dataMinY, dataMaxX, dataMaxY. -/
structure ScanState where
  foundData : Bool
  dataMinX : Nat
  dataMinY : Nat
  dataMaxX : Nat
  dataMaxY : Nat
deriving DecidableEq

/-- Row-major pixel coordinate sequence: (x, y) for y in [0,h), x in [0,w),
exactly the iteration order of the nested loops at lines 66-76. -/
def pixelsRowMajor (w h : Nat) : List (Nat × Nat) :=
  (List.range h).flatMap (fun y => (List.range w).map (fun x => (x, y)))

/-- Loop body at lines 68-74: a pixel is opaque iff its mask byte is 255
(isOpaque, line 195-197); an opaque pixel updates the running bounds. -/
def scanStep (mask : Nat → Nat) (w : Nat) (s : ScanState) (p : Nat × Nat) : ScanState :=
  if mask (p.2 * w + p.1) = 255 then
    ⟨true, min s.dataMinX p.1, min s.dataMinY p.2, max s.dataMaxX p.1, max s.dataMaxY p.2⟩
  else s

/-- Full scan with the initial values of line 63:
dataMinX = width, dataMinY = height, dataMaxX = 0, dataMaxY = 0. -/
def scanMask (mask : Nat → Nat) (w h : Nat) : ScanState :=
  (pixelsRowMajor w h).foldl (scanStep mask w) ⟨false, w, h, 0, 0⟩

/-- Bounds-scan part of getValidGeometry: the pixel bounding box of the
opaque pixels, or none when foundData stays false (lines 78-81). -/
def getValidBox (mask : Nat → Nat) (w h : Nat) : Option (Nat × Nat × Nat × Nat) :=
  if (scanMask mask w h).foundData then
    some ((scanMask mask w h).dataMinX, (scanMask mask w h).dataMinY,
          (scanMask mask w h).dataMaxX, (scanMask mask w h).dataMaxY)
  else none

/-! ## Affine projector (src/main2.cpp lines 199-207) -/

/-- GeoTransform holds the six affine coefficients geoTransform[0..5]. -/
structure GeoTransform where
  t0 : ℚ
  t1 : ℚ
  t2 : ℚ
  t3 : ℚ
  t4 : ℚ
  t5 : ℚ

/-- pixelToGeo, lines 199-207: affine mapping when hasGeoTransform, else
the fallback geoX = x, geoY = height - y. -/
def pixelToGeo (gt : Option GeoTransform) (height : Nat) (x y : Nat) : ℚ × ℚ :=
  match gt with
  | some t => (t.t0 + (x : ℚ) * t.t1 + (y : ℚ) * t.t2,
               t.t3 + (x : ℚ) * t.t4 + (y : ℚ) * t.t5)
  | none => ((x : ℚ), (height : ℚ) - (y : ℚ))

/-! ## Extent polygon builder (src/main2.cpp lines 86-115) -/

/-- Ring construction of getValidGeometry, lines 86-115: project the
upper-left corner (dataMinX, dataMinY) and the exclusive lower-right corner
(dataMaxX+1, dataMaxY+1), then emit the five coordinate pairs in the fixed
order of the GEOSCoordSeq_setX/setY calls. -/
def buildPolygon (gt : Option GeoTransform) (height : Nat)
    (box : Nat × Nat × Nat × Nat) : List (ℚ × ℚ) :=
  [((pixelToGeo gt height box.1 box.2.1).1, (pixelToGeo gt height box.1 box.2.1).2),
   ((pixelToGeo gt height (box.2.2.1 + 1) (box.2.2.2 + 1)).1, (pixelToGeo gt height box.1 box.2.1).2),
   ((pixelToGeo gt height (box.2.2.1 + 1) (box.2.2.2 + 1)).1, (pixelToGeo gt height (box.2.2.1 + 1) (box.2.2.2 + 1)).2),
   ((pixelToGeo gt height box.1 box.2.1).1, (pixelToGeo gt height (box.2.2.1 + 1) (box.2.2.2 + 1)).2),
   ((pixelToGeo gt height box.1 box.2.1).1, (pixelToGeo gt height box.1 box.2.1).2)]

/-! ## Raster loading (src/main2.cpp lines 38-52, 157-193)

A RasterFile bundles what the GDAL collaborator would answer for one input
file: whether GDALOpen succeeds, the dimensions, the color interpretation
of each band (1-based in GDAL, position i of the list is band i+1), the
byte data RasterIO would return for each band, whether RasterIO succeeds,
and the optional geotransform. -/

/-- Color interpretation of a band; the code only distinguishes
GCI_AlphaBand from everything else (line 183). -/
inductive GDALColorInterp where
  | alphaBand
  | otherBand (code : Nat)
deriving DecidableEq

/-- RasterFile models the GDAL view of one input file. -/
structure RasterFile where
  opens : Bool
  width : Nat
  height : Nat
  bands : List GDALColorInterp
  bandData : Nat → Nat → Nat
  readOK : Bool
  geoTransform : Option GeoTransform

/-- RasterState is the processor state after a successful loadRaster:
width, height, maskData and the geotransform. -/
structure RasterState where
  width : Nat
  height : Nat
  maskData : Nat → Nat
  geoTransform : Option GeoTransform

/-- Loop of findAlphaBand, lines 179-186: return the first 1-based band
index whose color interpretation is alpha; i is the index of the head. -/
def findAlphaAux (i : Nat) : List GDALColorInterp → Option Nat
  | [] => none
  | c :: rest => if c = .alphaBand then some i else findAlphaAux (i + 1) rest

/-- findAlphaBand, lines 176-193: first alpha band, else the last band when
there are at least 4 bands, else -1. -/
def findAlphaBand (bands : List GDALColorInterp) : Int :=
  match findAlphaAux 1 bands with
  | some i => (i : Int)
  | none => if bands.length ≥ 4 then (bands.length : Int) else -1

/-- loadMaskData, lines 157-174: fail when findAlphaBand returns -1, else
read the chosen band as the mask; fail when RasterIO fails. -/
def loadMaskData (f : RasterFile) : Option (Nat → Nat) :=
  if findAlphaBand f.bands = -1 then none
  else if f.readOK then some (f.bandData (findAlphaBand f.bands).toNat)
  else none

/-- loadRaster, lines 38-52: fail when GDALOpen fails, record dimensions
and the geotransform, then delegate to loadMaskData. -/
def loadRaster (f : RasterFile) : Option RasterState :=
  if f.opens then
    match loadMaskData f with
    | some m => some ⟨f.width, f.height, m, f.geoTransform⟩
    | none => none
  else none

/-- getValidGeometry, lines 55-116: nullptr when maskData is empty (the
buffer has width*height bytes, so empty means width*height = 0) or when
the scan finds no opaque pixel; otherwise the 5-point ring built from the
scanned box. -/
def getValidGeometry (r : RasterState) : Option (List (ℚ × ℚ)) :=
  if r.width * r.height = 0 then none
  else
    match getValidBox r.maskData r.width r.height with
    | none => none
    | some box => some (buildPolygon r.geoTransform r.height box)

/-! ## GEOS envelope collaborator model (used by geometryToGeoJSON)

A GEOS geometry is modelled by the list of its coordinates; the program
only ever inspects emptiness and the envelope.  GEOSEnvelope follows the
JTS/GEOS contract: the envelope of a geometry whose extent is degenerate
(zero width or zero height) is a Point or LineString, which has no
exterior ring, so GEOSGetExteriorRing yields nothing for it; otherwise the
envelope is the rectangle polygon whose shell runs
(minX,minY), (maxX,minY), (maxX,maxY), (minX,maxY), (minX,minY). -/

/-- Minimum X over the coordinates of a geometry (0 for the empty one). -/
def envMinX (c : List (ℚ × ℚ)) : ℚ :=
  match c with
  | [] => 0
  | p :: r => r.foldl (fun m q => min m q.1) p.1

/-- Maximum X over the coordinates of a geometry (0 for the empty one). -/
def envMaxX (c : List (ℚ × ℚ)) : ℚ :=
  match c with
  | [] => 0
  | p :: r => r.foldl (fun m q => max m q.1) p.1

/-- Minimum Y over the coordinates of a geometry (0 for the empty one). -/
def envMinY (c : List (ℚ × ℚ)) : ℚ :=
  match c with
  | [] => 0
  | p :: r => r.foldl (fun m q => min m q.2) p.2

/-- Maximum Y over the coordinates of a geometry (0 for the empty one). -/
def envMaxY (c : List (ℚ × ℚ)) : ℚ :=
  match c with
  | [] => 0
  | p :: r => r.foldl (fun m q => max m q.2) p.2

/-- What the serializer observes of the envelope of a geometry: either the
coordinate sequence of its exterior ring, or nothing (envelope degenerated
to a point or line, or the geometry was empty). -/
inductive EnvelopeView where
  | noRing
  | ring (pts : List (ℚ × ℚ))
deriving DecidableEq

/-- Modelled from the spec: the geometry collaborator primitive
envelope(G) -> (minX,minY,maxX,maxY) as consumed through GEOSEnvelope and
GEOSGetExteriorRing.  Per the GEOS contract a degenerate envelope is a
Point or LineString and exposes no exterior ring; a proper envelope is the
rectangle polygon listed counterclockwise from (minX,minY). -/
def geosEnvelopeView (coords : List (ℚ × ℚ)) : EnvelopeView :=
  match coords with
  | [] => .noRing
  | _ :: _ =>
      if envMinX coords = envMaxX coords ∨ envMinY coords = envMaxY coords then .noRing
      else .ring [(envMinX coords, envMinY coords), (envMaxX coords, envMinY coords),
                  (envMaxX coords, envMaxY coords), (envMinX coords, envMaxY coords),
                  (envMinX coords, envMinY coords)]

/-! ## JSON model (nlohmann::json)

nlohmann::json stores object members in a std::map keyed by the member
name, so members are kept, and serialized, in ascending lexicographic key
order regardless of construction order; mkObj reproduces that by inserting
each pair of the initializer list into a key-sorted list.  dumpVal
reproduces the pretty printer of dump(indent): objects and arrays open on
their own line, each member or element is indented by one more step, and
empty containers print inline.  Number formatting is a property of the
double formatter and is kept abstract as the parameter rn. -/

/-- JValue is the value tree of nlohmann::json restricted to the
constructors this program uses. -/
inductive JValue where
  | num (q : ℚ)
  | str (s : String)
  | arr (elems : List JValue)
  | obj (fields : List (String × JValue))

/-- Byte-wise lexicographic order on char lists, as std::less on
std::string compares the underlying bytes. -/
def charListLt : List Char → List Char → Bool
  | [], [] => false
  | [], _ :: _ => true
  | _ :: _, [] => false
  | a :: as, b :: bs =>
      if a.toNat < b.toNat then true
      else if b.toNat < a.toNat then false
      else charListLt as bs

/-- Key order of the std::map inside nlohmann::json. -/
def keyLt (a b : String) : Bool := charListLt a.data b.data

/-- Insertion into a key-sorted member list; on an equal key the existing
member is kept, as std::map emplace does. -/
def insertField (kv : String × JValue) : List (String × JValue) → List (String × JValue)
  | [] => [kv]
  | (k, v) :: rest =>
      if keyLt kv.1 k then kv :: (k, v) :: rest
      else if kv.1 = k then (k, v) :: rest
      else (k, v) :: insertField kv rest

/-- Object construction from an initializer list, with the std::map key
sorting of nlohmann::json. -/
def mkObj (fields : List (String × JValue)) : JValue :=
  .obj (fields.foldl (fun acc kv => insertField kv acc) [])

/-- Indentation string of n spaces. -/
def spacesN (n : Nat) : String := String.mk (List.replicate n ' ')

mutual

/-- Pretty printer of nlohmann::json dump(ind); cur is the current
indentation level in spaces and rn formats a number. -/
def dumpVal (rn : ℚ → String) (ind cur : Nat) : JValue → String
  | .num q => rn q
  | .str s => "\"" ++ s ++ "\""
  | .arr [] => "[]"
  | .arr (x :: xs) =>
      "[\n" ++ dumpArrItems rn ind (cur + ind) (x :: xs) ++ "\n" ++ spacesN cur ++ "]"
  | .obj [] => "\x7b\x7d"
  | .obj (f :: fs) =>
      "\x7b\n" ++ dumpObjItems rn ind (cur + ind) (f :: fs) ++ "\n" ++ spacesN cur ++ "\x7d"

/-- Array elements of the pretty printer, one per line. -/
def dumpArrItems (rn : ℚ → String) (ind cur : Nat) : List JValue → String
  | [] => ""
  | [x] => spacesN cur ++ dumpVal rn ind cur x
  | x :: y :: xs =>
      spacesN cur ++ dumpVal rn ind cur x ++ ",\n" ++ dumpArrItems rn ind cur (y :: xs)

/-- Object members of the pretty printer, one per line. -/
def dumpObjItems (rn : ℚ → String) (ind cur : Nat) : List (String × JValue) → String
  | [] => ""
  | [(k, v)] => spacesN cur ++ "\"" ++ k ++ "\": " ++ dumpVal rn ind cur v
  | (k, v) :: g :: fs =>
      spacesN cur ++ "\"" ++ k ++ "\": " ++ dumpVal rn ind cur v ++ ",\n" ++
        dumpObjItems rn ind cur (g :: fs)

end

/-- Whitespace removal, for statements about a document modulo whitespace. -/
def stripWs (s : String) : String :=
  String.mk (s.data.filter (fun c => !(c = ' ' ∨ c = '\n')))

/-! ## GeoJSON serializer (src/main2.cpp lines 211-263) -/

/-- GeoBBox holds the four bounds the serializer feeds into the rectangle. -/
structure GeoBBox where
  minX : ℚ
  minY : ℚ
  maxX : ℚ
  maxY : ℚ
deriving DecidableEq

/-- Bounds step of geometryToGeoJSON, lines 216-238: the defaults are
minX = 0, minY = 0, maxX = 100, maxY = 100; when the exterior ring of the
envelope is extractable, point 0 overwrites the minima and point 2 the
maxima.  A missing point leaves the default in place, as a failing
GEOSCoordSeq_getX leaves its output variable untouched. -/
def geoJSONBounds (coords : List (ℚ × ℚ)) : GeoBBox :=
  match geosEnvelopeView coords with
  | .noRing => ⟨0, 0, 100, 100⟩
  | .ring pts =>
      ⟨(pts.getD 0 (0, 0)).1, (pts.getD 0 (0, 0)).2,
       (pts.getD 2 (100, 100)).1, (pts.getD 2 (100, 100)).2⟩

/-- Coordinate pair as a JSON array of two numbers. -/
def jPoint (x y : ℚ) : JValue := .arr [.num x, .num y]

/-- Document value built by geometryToGeoJSON for a non-null geometry,
lines 240-260: one Feature named Intersection Area whose Polygon ring is
the rectangle of the computed bounds in the construction order
(minX,minY), (maxX,minY), (maxX,maxY), (minX,maxY), (minX,minY). -/
def geometryJson (coords : List (ℚ × ℚ)) : JValue :=
  mkObj [("type", .str "FeatureCollection"),
         ("features", .arr [
            mkObj [("type", .str "Feature"),
                   ("properties", mkObj [("name", .str "Intersection Area")]),
                   ("geometry", mkObj [
                      ("type", .str "Polygon"),
                      ("coordinates", .arr [.arr [
                         jPoint (geoJSONBounds coords).minX (geoJSONBounds coords).minY,
                         jPoint (geoJSONBounds coords).maxX (geoJSONBounds coords).minY,
                         jPoint (geoJSONBounds coords).maxX (geoJSONBounds coords).maxY,
                         jPoint (geoJSONBounds coords).minX (geoJSONBounds coords).maxY,
                         jPoint (geoJSONBounds coords).minX (geoJSONBounds coords).minY]])])]])]

/-- geometryToGeoJSON, lines 211-263: a null geometry yields the fixed
raw literal of line 213; a non-null one yields dump(4) of the document. -/
def geometryToGeoJSON (rn : ℚ → String) (geometry : Option (List (ℚ × ℚ))) : String :=
  match geometry with
  | none => "\x7b\"type\": \"FeatureCollection\", \"features\": []\x7d"
  | some coords => dumpVal rn 4 0 (geometryJson coords)

/-- Document value emptyGeojson of lines 317-320. -/
def emptyFeatureCollection : JValue :=
  mkObj [("type", .str "FeatureCollection"), ("features", .arr [])]

/-! ## Pipeline driver (src/main2.cpp lines 266-351)

The GEOS intersection primitive is an external collaborator; mainRun takes
it as the parameter intersectFn.  A null return of GEOSIntersection is
modelled as none, an empty geometry as some [].  The written document is
modelled in the document field of the result: none when the program writes
no file. -/

/-- RunResult pairs the process exit status with the written document. -/
structure RunResult where
  exitCode : Nat
  document : Option String
deriving DecidableEq

/-- mainRun models main, lines 266-351, for a build with GEOS available:
load orto1 then orto2 (each failure exits with status 1 and no document);
build the two geometries; when both exist, intersect and write either the
serialized intersection document or the empty FeatureCollection dump; when
at least one geometry is missing, only report and fall through to the
final return 0 without writing anything. -/
def mainRun (rn : ℚ → String)
    (intersectFn : List (ℚ × ℚ) → List (ℚ × ℚ) → Option (List (ℚ × ℚ)))
    (orto1 orto2 : RasterFile) : RunResult :=
  match loadRaster orto1 with
  | none => ⟨1, none⟩
  | some processor1 =>
    match loadRaster orto2 with
    | none => ⟨1, none⟩
    | some processor2 =>
      match getValidGeometry processor1, getValidGeometry processor2 with
      | some geometry1, some geometry2 =>
          (match intersectFn geometry1 geometry2 with
           | some g =>
               if g.isEmpty then ⟨0, some (dumpVal rn 4 0 emptyFeatureCollection)⟩
               else ⟨0, some (geometryToGeoJSON rn (some g))⟩
           | none => ⟨0, some (dumpVal rn 4 0 emptyFeatureCollection)⟩)
      | _, _ => ⟨0, none⟩

/-! ## Document inspection helpers for the theorems -/

/-- Member names of an object value in stored (serialized) order. -/
def objKeys : JValue → List String
  | .obj fields => fields.map Prod.fst
  | _ => []

/-- Member lookup in an object value. -/
def getField (k : String) : JValue → Option JValue
  | .obj fields => fields.lookup k
  | _ => none

/-- Numeric coordinate pair read back from a JSON point; nothing when the
value is not an array of exactly two plain numbers. -/
def jPointVal : JValue → Option (ℚ × ℚ)
  | .arr [.num x, .num y] => some (x, y)
  | _ => none

/-- Numeric coordinate list read back from a list of JSON points. -/
def jPointsVal : List JValue → Option (List (ℚ × ℚ))
  | [] => some []
  | v :: rest =>
      match jPointVal v, jPointsVal rest with
      | some p, some ps => some (p :: ps)
      | _, _ => none

/-- Ring of the single Feature of a document: the first element of the
coordinates member of its geometry, decoded to numeric pairs; nothing when
the document does not have exactly that shape. -/
def docRingPoints (doc : JValue) : Option (List (ℚ × ℚ)) :=
  match getField "features" doc with
  | some (.arr [f]) =>
      (match getField "geometry" f with
       | some g =>
           (match getField "coordinates" g with
            | some (.arr [.arr r]) => jPointsVal r
            | _ => none)
       | _ => none)
  | _ => none

/-- Name property of the single Feature of a document. -/
def docFeatureName (doc : JValue) : Option JValue :=
  match getField "features" doc with
  | some (.arr [f]) =>
      (match getField "properties" f with
       | some p => getField "name" p
       | _ => none)
  | _ => none

/-- Definition following the claim wording, for comparison with the
produced ring: the 5-point rectangle of the axis-aligned envelope of the
geometry, in the order (minX,minY), (maxX,minY), (maxX,maxY), (minX,maxY),
(minX,minY). -/
def specEnvelopeRect (coords : List (ℚ × ℚ)) : List (ℚ × ℚ) :=
  [(envMinX coords, envMinY coords), (envMaxX coords, envMinY coords),
   (envMaxX coords, envMaxY coords), (envMinX coords, envMaxY coords),
   (envMinX coords, envMinY coords)]

/-! ## Lemmas about the mask scan fold -/

theorem mem_pixelsRowMajor (w h : Nat) (p : Nat × Nat) :
    p ∈ pixelsRowMajor w h ↔ p.1 < w ∧ p.2 < h := by
  cases p with
  | mk x y =>
    simp only [pixelsRowMajor, List.mem_flatMap, List.mem_map, List.mem_range, Prod.mk.injEq]
    constructor
    · rintro ⟨a, ha, b, hb, h1, h2⟩
      subst h1; subst h2; exact ⟨hb, ha⟩
    · rintro ⟨hx, hy⟩
      exact ⟨y, hy, x, hx, rfl, rfl⟩

theorem scanFold_found (mask : Nat → Nat) (w : Nat) (l : List (Nat × Nat)) (s : ScanState) :
    (l.foldl (scanStep mask w) s).foundData = true ↔
      s.foundData = true ∨ ∃ p ∈ l, mask (p.2 * w + p.1) = 255 := by
  induction l generalizing s with
  | nil => simp
  | cons a l ih =>
    rw [List.foldl_cons, ih]
    by_cases hv : mask (a.2 * w + a.1) = 255
    · constructor
      · intro _
        exact Or.inr ⟨a, List.mem_cons_self a l, hv⟩
      · intro _
        exact Or.inl (by simp [scanStep, hv])
    · rw [show scanStep mask w s a = s by simp [scanStep, hv]]
      constructor
      · rintro (h | ⟨p, hp, hpv⟩)
        · exact Or.inl h
        · exact Or.inr ⟨p, List.mem_cons_of_mem a hp, hpv⟩
      · rintro (h | ⟨p, hp, hpv⟩)
        · exact Or.inl h
        · rcases List.mem_cons.mp hp with rfl | hp2
          · exact absurd hpv hv
          · exact Or.inr ⟨p, hp2, hpv⟩

theorem scanFold_minX_le (mask : Nat → Nat) (w : Nat) (l : List (Nat × Nat)) (s : ScanState) :
    (l.foldl (scanStep mask w) s).dataMinX ≤ s.dataMinX := by
  induction l generalizing s with
  | nil => exact le_refl _
  | cons a l ih =>
    rw [List.foldl_cons]
    refine le_trans (ih (scanStep mask w s a)) ?_
    by_cases hv : mask (a.2 * w + a.1) = 255
    · simp only [scanStep, if_pos hv]
      exact min_le_left _ _
    · simp only [scanStep, if_neg hv]
      exact le_refl _

theorem scanFold_minY_le (mask : Nat → Nat) (w : Nat) (l : List (Nat × Nat)) (s : ScanState) :
    (l.foldl (scanStep mask w) s).dataMinY ≤ s.dataMinY := by
  induction l generalizing s with
  | nil => exact le_refl _
  | cons a l ih =>
    rw [List.foldl_cons]
    refine le_trans (ih (scanStep mask w s a)) ?_
    by_cases hv : mask (a.2 * w + a.1) = 255
    · simp only [scanStep, if_pos hv]
      exact min_le_left _ _
    · simp only [scanStep, if_neg hv]
      exact le_refl _

theorem scanFold_le_maxX (mask : Nat → Nat) (w : Nat) (l : List (Nat × Nat)) (s : ScanState) :
    s.dataMaxX ≤ (l.foldl (scanStep mask w) s).dataMaxX := by
  induction l generalizing s with
  | nil => exact le_refl _
  | cons a l ih =>
    rw [List.foldl_cons]
    refine le_trans ?_ (ih (scanStep mask w s a))
    by_cases hv : mask (a.2 * w + a.1) = 255
    · simp only [scanStep, if_pos hv]
      exact le_max_left _ _
    · simp only [scanStep, if_neg hv]
      exact le_refl _

theorem scanFold_le_maxY (mask : Nat → Nat) (w : Nat) (l : List (Nat × Nat)) (s : ScanState) :
    s.dataMaxY ≤ (l.foldl (scanStep mask w) s).dataMaxY := by
  induction l generalizing s with
  | nil => exact le_refl _
  | cons a l ih =>
    rw [List.foldl_cons]
    refine le_trans ?_ (ih (scanStep mask w s a))
    by_cases hv : mask (a.2 * w + a.1) = 255
    · simp only [scanStep, if_pos hv]
      exact le_max_left _ _
    · simp only [scanStep, if_neg hv]
      exact le_refl _

theorem scanFold_bounds (mask : Nat → Nat) (w : Nat) (l : List (Nat × Nat)) (s : ScanState)
    (p : Nat × Nat) :
    p ∈ l → mask (p.2 * w + p.1) = 255 →
      (l.foldl (scanStep mask w) s).dataMinX ≤ p.1 ∧
      p.1 ≤ (l.foldl (scanStep mask w) s).dataMaxX ∧
      (l.foldl (scanStep mask w) s).dataMinY ≤ p.2 ∧
      p.2 ≤ (l.foldl (scanStep mask w) s).dataMaxY := by
  induction l generalizing s with
  | nil => intro hp _; cases hp
  | cons a l ih =>
    intro hp hv
    rw [List.foldl_cons]
    rcases List.mem_cons.mp hp with rfl | hmem
    · have hstep : scanStep mask w s p =
          ⟨true, min s.dataMinX p.1, min s.dataMinY p.2,
           max s.dataMaxX p.1, max s.dataMaxY p.2⟩ := by
        simp [scanStep, hv]
      rw [hstep]
      refine ⟨le_trans (scanFold_minX_le mask w l
                ⟨true, min s.dataMinX p.1, min s.dataMinY p.2,
                 max s.dataMaxX p.1, max s.dataMaxY p.2⟩) (min_le_right _ _),
              le_trans (le_max_right _ _) (scanFold_le_maxX mask w l
                ⟨true, min s.dataMinX p.1, min s.dataMinY p.2,
                 max s.dataMaxX p.1, max s.dataMaxY p.2⟩),
              le_trans (scanFold_minY_le mask w l
                ⟨true, min s.dataMinX p.1, min s.dataMinY p.2,
                 max s.dataMaxX p.1, max s.dataMaxY p.2⟩) (min_le_right _ _),
              le_trans (le_max_right _ _) (scanFold_le_maxY mask w l
                ⟨true, min s.dataMinX p.1, min s.dataMinY p.2,
                 max s.dataMaxX p.1, max s.dataMaxY p.2⟩)⟩
    · exact ih _ hmem hv

theorem scanFold_minX_attained (mask : Nat → Nat) (w : Nat) (l : List (Nat × Nat))
    (s : ScanState) :
    (l.foldl (scanStep mask w) s).dataMinX = s.dataMinX ∨
      ∃ p ∈ l, mask (p.2 * w + p.1) = 255 ∧ (l.foldl (scanStep mask w) s).dataMinX = p.1 := by
  induction l generalizing s with
  | nil => exact Or.inl rfl
  | cons a l ih =>
    rw [List.foldl_cons]
    by_cases hv : mask (a.2 * w + a.1) = 255
    · have hstep : scanStep mask w s a =
          ⟨true, min s.dataMinX a.1, min s.dataMinY a.2,
           max s.dataMaxX a.1, max s.dataMaxY a.2⟩ := by
        simp [scanStep, hv]
      rw [hstep]
      rcases ih ⟨true, min s.dataMinX a.1, min s.dataMinY a.2,
                 max s.dataMaxX a.1, max s.dataMaxY a.2⟩ with h | ⟨p, hp, hpv, hpe⟩
      · rcases le_total s.dataMinX a.1 with hle | hle
        · exact Or.inl (by rw [h]; exact min_eq_left hle)
        · exact Or.inr ⟨a, List.mem_cons_self a l, hv, by rw [h]; exact min_eq_right hle⟩
      · exact Or.inr ⟨p, List.mem_cons_of_mem a hp, hpv, hpe⟩
    · rw [show scanStep mask w s a = s by simp [scanStep, hv]]
      rcases ih s with h | ⟨p, hp, hpv, hpe⟩
      · exact Or.inl h
      · exact Or.inr ⟨p, List.mem_cons_of_mem a hp, hpv, hpe⟩

theorem scanFold_minY_attained (mask : Nat → Nat) (w : Nat) (l : List (Nat × Nat))
    (s : ScanState) :
    (l.foldl (scanStep mask w) s).dataMinY = s.dataMinY ∨
      ∃ p ∈ l, mask (p.2 * w + p.1) = 255 ∧ (l.foldl (scanStep mask w) s).dataMinY = p.2 := by
  induction l generalizing s with
  | nil => exact Or.inl rfl
  | cons a l ih =>
    rw [List.foldl_cons]
    by_cases hv : mask (a.2 * w + a.1) = 255
    · have hstep : scanStep mask w s a =
          ⟨true, min s.dataMinX a.1, min s.dataMinY a.2,
           max s.dataMaxX a.1, max s.dataMaxY a.2⟩ := by
        simp [scanStep, hv]
      rw [hstep]
      rcases ih ⟨true, min s.dataMinX a.1, min s.dataMinY a.2,
                 max s.dataMaxX a.1, max s.dataMaxY a.2⟩ with h | ⟨p, hp, hpv, hpe⟩
      · rcases le_total s.dataMinY a.2 with hle | hle
        · exact Or.inl (by rw [h]; exact min_eq_left hle)
        · exact Or.inr ⟨a, List.mem_cons_self a l, hv, by rw [h]; exact min_eq_right hle⟩
      · exact Or.inr ⟨p, List.mem_cons_of_mem a hp, hpv, hpe⟩
    · rw [show scanStep mask w s a = s by simp [scanStep, hv]]
      rcases ih s with h | ⟨p, hp, hpv, hpe⟩
      · exact Or.inl h
      · exact Or.inr ⟨p, List.mem_cons_of_mem a hp, hpv, hpe⟩

theorem scanFold_maxX_attained (mask : Nat → Nat) (w : Nat) (l : List (Nat × Nat))
    (s : ScanState) :
    (l.foldl (scanStep mask w) s).dataMaxX = s.dataMaxX ∨
      ∃ p ∈ l, mask (p.2 * w + p.1) = 255 ∧ (l.foldl (scanStep mask w) s).dataMaxX = p.1 := by
  induction l generalizing s with
  | nil => exact Or.inl rfl
  | cons a l ih =>
    rw [List.foldl_cons]
    by_cases hv : mask (a.2 * w + a.1) = 255
    · have hstep : scanStep mask w s a =
          ⟨true, min s.dataMinX a.1, min s.dataMinY a.2,
           max s.dataMaxX a.1, max s.dataMaxY a.2⟩ := by
        simp [scanStep, hv]
      rw [hstep]
      rcases ih ⟨true, min s.dataMinX a.1, min s.dataMinY a.2,
                 max s.dataMaxX a.1, max s.dataMaxY a.2⟩ with h | ⟨p, hp, hpv, hpe⟩
      · rcases le_total a.1 s.dataMaxX with hle | hle
        · exact Or.inl (by rw [h]; exact max_eq_left hle)
        · exact Or.inr ⟨a, List.mem_cons_self a l, hv, by rw [h]; exact max_eq_right hle⟩
      · exact Or.inr ⟨p, List.mem_cons_of_mem a hp, hpv, hpe⟩
    · rw [show scanStep mask w s a = s by simp [scanStep, hv]]
      rcases ih s with h | ⟨p, hp, hpv, hpe⟩
      · exact Or.inl h
      · exact Or.inr ⟨p, List.mem_cons_of_mem a hp, hpv, hpe⟩

theorem scanFold_maxY_attained (mask : Nat → Nat) (w : Nat) (l : List (Nat × Nat))
    (s : ScanState) :
    (l.foldl (scanStep mask w) s).dataMaxY = s.dataMaxY ∨
      ∃ p ∈ l, mask (p.2 * w + p.1) = 255 ∧ (l.foldl (scanStep mask w) s).dataMaxY = p.2 := by
  induction l generalizing s with
  | nil => exact Or.inl rfl
  | cons a l ih =>
    rw [List.foldl_cons]
    by_cases hv : mask (a.2 * w + a.1) = 255
    · have hstep : scanStep mask w s a =
          ⟨true, min s.dataMinX a.1, min s.dataMinY a.2,
           max s.dataMaxX a.1, max s.dataMaxY a.2⟩ := by
        simp [scanStep, hv]
      rw [hstep]
      rcases ih ⟨true, min s.dataMinX a.1, min s.dataMinY a.2,
                 max s.dataMaxX a.1, max s.dataMaxY a.2⟩ with h | ⟨p, hp, hpv, hpe⟩
      · rcases le_total a.2 s.dataMaxY with hle | hle
        · exact Or.inl (by rw [h]; exact max_eq_left hle)
        · exact Or.inr ⟨a, List.mem_cons_self a l, hv, by rw [h]; exact max_eq_right hle⟩
      · exact Or.inr ⟨p, List.mem_cons_of_mem a hp, hpv, hpe⟩
    · rw [show scanStep mask w s a = s by simp [scanStep, hv]]
      rcases ih s with h | ⟨p, hp, hpv, hpe⟩
      · exact Or.inl h
      · exact Or.inr ⟨p, List.mem_cons_of_mem a hp, hpv, hpe⟩

/-! ## Claim theorems: scanner, projector, polygon builder -/

/-- C2: the mask scanner signals NoData exactly when no pixel of the
width-by-height frame has mask value 255; otherwise the returned pixel
bounding box is ordered, contains every valid pixel, and each of its four
edges carries at least one valid pixel. -/
theorem validity_mask_scanner_correct (mask : Nat → Nat) (w h : Nat) :
    (getValidBox mask w h = none ↔ ∀ x y, x < w → y < h → mask (y * w + x) ≠ 255) ∧
    (∀ a b c d, getValidBox mask w h = some (a, b, c, d) →
      a ≤ c ∧ b ≤ d ∧
      (∀ x y, x < w → y < h → mask (y * w + x) = 255 → a ≤ x ∧ x ≤ c ∧ b ≤ y ∧ y ≤ d) ∧
      (∃ y, y < h ∧ mask (y * w + a) = 255) ∧
      (∃ y, y < h ∧ mask (y * w + c) = 255) ∧
      (∃ x, x < w ∧ mask (b * w + x) = 255) ∧
      (∃ x, x < w ∧ mask (d * w + x) = 255)) := by
  have hfound : (scanMask mask w h).foundData = true ↔
      ∃ p ∈ pixelsRowMajor w h, mask (p.2 * w + p.1) = 255 := by
    have h0 := scanFold_found mask w (pixelsRowMajor w h) ⟨false, w, h, 0, 0⟩
    simpa using h0
  constructor
  · constructor
    · intro hnone x y hx hy hv
      have hf : (scanMask mask w h).foundData = true :=
        hfound.mpr ⟨(x, y), (mem_pixelsRowMajor w h (x, y)).mpr ⟨hx, hy⟩, hv⟩
      simp only [getValidBox] at hnone
      rw [if_pos hf] at hnone
      exact Option.noConfusion hnone
    · intro hall
      have hnf : ¬(scanMask mask w h).foundData = true := by
        intro hf
        rcases hfound.mp hf with ⟨p, hp, hpv⟩
        rcases (mem_pixelsRowMajor w h p).mp hp with ⟨h1, h2⟩
        exact hall p.1 p.2 h1 h2 hpv
      simp only [getValidBox]
      rw [if_neg hnf]
  · intro a b c d hsome
    by_cases hf : (scanMask mask w h).foundData = true
    case neg =>
      simp only [getValidBox] at hsome
      rw [if_neg hf] at hsome
      exact Option.noConfusion hsome
    simp only [getValidBox] at hsome
    rw [if_pos hf] at hsome
    simp only [Option.some.injEq, Prod.mk.injEq] at hsome
    obtain ⟨ha, hb, hc, hd⟩ := hsome
    subst ha; subst hb; subst hc; subst hd
    obtain ⟨p0, hp0, hv0⟩ := hfound.mp hf
    obtain ⟨h01, h02⟩ := (mem_pixelsRowMajor w h p0).mp hp0
    have hbnd : ∀ p : Nat × Nat, p ∈ pixelsRowMajor w h → mask (p.2 * w + p.1) = 255 →
        (scanMask mask w h).dataMinX ≤ p.1 ∧ p.1 ≤ (scanMask mask w h).dataMaxX ∧
        (scanMask mask w h).dataMinY ≤ p.2 ∧ p.2 ≤ (scanMask mask w h).dataMaxY :=
      fun p hp hv => scanFold_bounds mask w (pixelsRowMajor w h) ⟨false, w, h, 0, 0⟩ p hp hv
    obtain ⟨hb1, hb2, hb3, hb4⟩ := hbnd p0 hp0 hv0
    refine ⟨le_trans hb1 hb2, le_trans hb3 hb4, ?_, ?_, ?_, ?_, ?_⟩
    · intro x y hx hy hv
      exact hbnd (x, y) ((mem_pixelsRowMajor w h (x, y)).mpr ⟨hx, hy⟩) hv
    · have hatt : (scanMask mask w h).dataMinX = w ∨
          ∃ p ∈ pixelsRowMajor w h, mask (p.2 * w + p.1) = 255 ∧
            (scanMask mask w h).dataMinX = p.1 :=
        scanFold_minX_attained mask w (pixelsRowMajor w h) ⟨false, w, h, 0, 0⟩
      rcases hatt with hinit | ⟨p, hp, hpv, hpe⟩
      · exact absurd hinit (by omega)
      · rcases (mem_pixelsRowMajor w h p).mp hp with ⟨_, hq2⟩
        refine ⟨p.2, hq2, ?_⟩
        rw [hpe]
        exact hpv
    · have hatt : (scanMask mask w h).dataMaxX = 0 ∨
          ∃ p ∈ pixelsRowMajor w h, mask (p.2 * w + p.1) = 255 ∧
            (scanMask mask w h).dataMaxX = p.1 :=
        scanFold_maxX_attained mask w (pixelsRowMajor w h) ⟨false, w, h, 0, 0⟩
      rcases hatt with hinit | ⟨p, hp, hpv, hpe⟩
      · refine ⟨p0.2, h02, ?_⟩
        have heq : p0.2 * w + (scanMask mask w h).dataMaxX = p0.2 * w + p0.1 := by omega
        rw [heq]
        exact hv0
      · rcases (mem_pixelsRowMajor w h p).mp hp with ⟨_, hq2⟩
        refine ⟨p.2, hq2, ?_⟩
        rw [hpe]
        exact hpv
    · have hatt : (scanMask mask w h).dataMinY = h ∨
          ∃ p ∈ pixelsRowMajor w h, mask (p.2 * w + p.1) = 255 ∧
            (scanMask mask w h).dataMinY = p.2 :=
        scanFold_minY_attained mask w (pixelsRowMajor w h) ⟨false, w, h, 0, 0⟩
      rcases hatt with hinit | ⟨p, hp, hpv, hpe⟩
      · exact absurd hinit (by omega)
      · rcases (mem_pixelsRowMajor w h p).mp hp with ⟨hq1, _⟩
        refine ⟨p.1, hq1, ?_⟩
        rw [hpe]
        exact hpv
    · have hatt : (scanMask mask w h).dataMaxY = 0 ∨
          ∃ p ∈ pixelsRowMajor w h, mask (p.2 * w + p.1) = 255 ∧
            (scanMask mask w h).dataMaxY = p.2 :=
        scanFold_maxY_attained mask w (pixelsRowMajor w h) ⟨false, w, h, 0, 0⟩
      rcases hatt with hinit | ⟨p, hp, hpv, hpe⟩
      · refine ⟨p0.1, h01, ?_⟩
        have heq : (scanMask mask w h).dataMaxY * w + p0.1 = p0.2 * w + p0.1 := by
          have : (scanMask mask w h).dataMaxY = p0.2 := by omega
          rw [this]
        rw [heq]
        exact hv0
      · rcases (mem_pixelsRowMajor w h p).mp hp with ⟨hq1, _⟩
        refine ⟨p.1, hq1, ?_⟩
        rw [hpe]
        exact hpv

/-- Mask with opaque pixels at (1,0) and (2,1) in a 3 by 2 frame, used as
concrete scanner input. -/
def witnessMask : Nat → Nat := fun i => if i = 1 ∨ i = 5 then 255 else 0

/-- Witness for C2: the all-zero mask yields none, and on witnessMask the
box (1,0)-(2,1) satisfies every clause. -/
theorem validity_mask_scanner_correct_witness :
    getValidBox (fun _ => 0) 3 2 = none ∧
    (1 ≤ 2 ∧ 0 ≤ 1 ∧
      (∀ x y, x < 3 → y < 2 → witnessMask (y * 3 + x) = 255 → 1 ≤ x ∧ x ≤ 2 ∧ 0 ≤ y ∧ y ≤ 1) ∧
      (∃ y, y < 2 ∧ witnessMask (y * 3 + 1) = 255) ∧
      (∃ y, y < 2 ∧ witnessMask (y * 3 + 2) = 255) ∧
      (∃ x, x < 3 ∧ witnessMask (0 * 3 + x) = 255) ∧
      (∃ x, x < 3 ∧ witnessMask (1 * 3 + x) = 255)) :=
  ⟨(validity_mask_scanner_correct (fun _ => 0) 3 2).1.mpr (fun _ _ _ _ => by decide),
   (validity_mask_scanner_correct witnessMask 3 2).2 1 0 2 1 (by decide)⟩

/-- C3: a polygon produced by getValidGeometry is exactly the closed
5-point ring obtained by projecting the scanned box corner (minX, minY) to
(ulx, uly) and the exclusive corner (maxX+1, maxY+1) to (lrx, lry) and
listing (ulx,uly), (lrx,uly), (lrx,lry), (ulx,lry), (ulx,uly); it has
length 5 and its first point equals its last. -/
theorem extent_polygon_ring (r : RasterState) (poly : List (ℚ × ℚ))
    (hpoly : getValidGeometry r = some poly) :
    ∃ minX minY maxX maxY,
      getValidBox r.maskData r.width r.height = some (minX, minY, maxX, maxY) ∧
      poly = [((pixelToGeo r.geoTransform r.height minX minY).1,
               (pixelToGeo r.geoTransform r.height minX minY).2),
              ((pixelToGeo r.geoTransform r.height (maxX + 1) (maxY + 1)).1,
               (pixelToGeo r.geoTransform r.height minX minY).2),
              ((pixelToGeo r.geoTransform r.height (maxX + 1) (maxY + 1)).1,
               (pixelToGeo r.geoTransform r.height (maxX + 1) (maxY + 1)).2),
              ((pixelToGeo r.geoTransform r.height minX minY).1,
               (pixelToGeo r.geoTransform r.height (maxX + 1) (maxY + 1)).2),
              ((pixelToGeo r.geoTransform r.height minX minY).1,
               (pixelToGeo r.geoTransform r.height minX minY).2)] ∧
      poly.length = 5 ∧ poly.head? = poly.getLast? := by
  unfold getValidGeometry at hpoly
  by_cases hz : r.width * r.height = 0
  · rw [if_pos hz] at hpoly
    exact Option.noConfusion hpoly
  rw [if_neg hz] at hpoly
  cases hbox : getValidBox r.maskData r.width r.height with
  | none =>
    rw [hbox] at hpoly
    exact Option.noConfusion hpoly
  | some box =>
    rw [hbox] at hpoly
    obtain ⟨minX, minY, maxX, maxY⟩ := box
    simp only [Option.some.injEq] at hpoly
    refine ⟨minX, minY, maxX, maxY, rfl, ?_, ?_, ?_⟩
    · rw [← hpoly]
      rfl
    · rw [← hpoly]
      rfl
    · rw [← hpoly]
      rfl

/-- Raster state of a 2 by 1 all-opaque raster without a geotransform. -/
def witnessRaster : RasterState := ⟨2, 1, fun _ => 255, none⟩

/-- Witness for C3 on witnessRaster: the scanned box is (0,0)-(1,0) and the
produced ring has the stated shape. -/
theorem extent_polygon_ring_witness :
    ∃ minX minY maxX maxY,
      getValidBox witnessRaster.maskData witnessRaster.width witnessRaster.height =
        some (minX, minY, maxX, maxY) ∧
      buildPolygon none 1 (0, 0, 1, 0) =
        [((pixelToGeo witnessRaster.geoTransform witnessRaster.height minX minY).1,
          (pixelToGeo witnessRaster.geoTransform witnessRaster.height minX minY).2),
         ((pixelToGeo witnessRaster.geoTransform witnessRaster.height (maxX + 1) (maxY + 1)).1,
          (pixelToGeo witnessRaster.geoTransform witnessRaster.height minX minY).2),
         ((pixelToGeo witnessRaster.geoTransform witnessRaster.height (maxX + 1) (maxY + 1)).1,
          (pixelToGeo witnessRaster.geoTransform witnessRaster.height (maxX + 1) (maxY + 1)).2),
         ((pixelToGeo witnessRaster.geoTransform witnessRaster.height minX minY).1,
          (pixelToGeo witnessRaster.geoTransform witnessRaster.height (maxX + 1) (maxY + 1)).2),
         ((pixelToGeo witnessRaster.geoTransform witnessRaster.height minX minY).1,
          (pixelToGeo witnessRaster.geoTransform witnessRaster.height minX minY).2)] ∧
      (buildPolygon none 1 (0, 0, 1, 0)).length = 5 ∧
      (buildPolygon none 1 (0, 0, 1, 0)).head? = (buildPolygon none 1 (0, 0, 1, 0)).getLast? :=
  extent_polygon_ring witnessRaster (buildPolygon none 1 (0, 0, 1, 0)) rfl

/-- C4: pixelToGeo applies the 6-parameter affine formula when a transform
is present, and the fallback geoX = x, geoY = height - y when absent. -/
theorem pixel_to_geo_formula (t : GeoTransform) (height : Nat) (x y : Nat) :
    pixelToGeo (some t) height x y =
      (t.t0 + (x : ℚ) * t.t1 + (y : ℚ) * t.t2,
       t.t3 + (x : ℚ) * t.t4 + (y : ℚ) * t.t5) ∧
    pixelToGeo none height x y = ((x : ℚ), (height : ℚ) - (y : ℚ)) :=
  ⟨rfl, rfl⟩

/-! ## Claim theorems: serializer -/

theorem docRingPoints_geometryJson (coords : List (ℚ × ℚ)) :
    docRingPoints (geometryJson coords) =
      some [((geoJSONBounds coords).minX, (geoJSONBounds coords).minY),
            ((geoJSONBounds coords).maxX, (geoJSONBounds coords).minY),
            ((geoJSONBounds coords).maxX, (geoJSONBounds coords).maxY),
            ((geoJSONBounds coords).minX, (geoJSONBounds coords).maxY),
            ((geoJSONBounds coords).minX, (geoJSONBounds coords).minY)] := rfl

/-- C5 (amended): for a non-empty intersection geometry whose axis-aligned
envelope is non-degenerate, the document is a FeatureCollection with
exactly one Feature, its property name is Intersection Area, and its
Polygon ring is the 5-point envelope rectangle in the order (minX,minY),
(maxX,minY), (maxX,maxY), (minX,maxY), (minX,minY). -/
theorem serializer_envelope_rectangle (coords : List (ℚ × ℚ))
    (hx : envMinX coords < envMaxX coords) (hy : envMinY coords < envMaxY coords) :
    (∃ f, getField "features" (geometryJson coords) = some (.arr [f])) ∧
    docFeatureName (geometryJson coords) = some (.str "Intersection Area") ∧
    docRingPoints (geometryJson coords) = some (specEnvelopeRect coords) := by
  have hbounds : geoJSONBounds coords =
      ⟨envMinX coords, envMinY coords, envMaxX coords, envMaxY coords⟩ := by
    cases coords with
    | nil => exact absurd hx (by simp [envMinX, envMaxX])
    | cons p rest =>
      have hcond : ¬(envMinX (p :: rest) = envMaxX (p :: rest) ∨
          envMinY (p :: rest) = envMaxY (p :: rest)) := by
        push_neg
        exact ⟨ne_of_lt hx, ne_of_lt hy⟩
      have hview : geosEnvelopeView (p :: rest) =
          .ring [(envMinX (p :: rest), envMinY (p :: rest)),
                 (envMaxX (p :: rest), envMinY (p :: rest)),
                 (envMaxX (p :: rest), envMaxY (p :: rest)),
                 (envMinX (p :: rest), envMaxY (p :: rest)),
                 (envMinX (p :: rest), envMinY (p :: rest))] := by
        simp only [geosEnvelopeView, if_neg hcond]
      unfold geoJSONBounds
      rw [hview]
      exact rfl
  refine ⟨⟨_, rfl⟩, rfl, ?_⟩
  rw [docRingPoints_geometryJson, hbounds]
  exact rfl

/-- Witness for C5 on the geometry with vertices (3,4) and (10,8). -/
theorem serializer_envelope_rectangle_witness :
    (∃ f, getField "features" (geometryJson [((3 : ℚ), (4 : ℚ)), (10, 8)]) = some (.arr [f])) ∧
    docFeatureName (geometryJson [((3 : ℚ), (4 : ℚ)), (10, 8)]) =
      some (.str "Intersection Area") ∧
    docRingPoints (geometryJson [((3 : ℚ), (4 : ℚ)), (10, 8)]) =
      some (specEnvelopeRect [((3 : ℚ), (4 : ℚ)), (10, 8)]) :=
  serializer_envelope_rectangle [((3 : ℚ), (4 : ℚ)), (10, 8)] (by decide) (by decide)

/-- C5 counterexample: for the degenerate (single-point) intersection
geometry (3,4) the produced ring is the default rectangle (0,0)-(100,100),
not the envelope rectangle of the geometry, so the claim fails as stated
for every non-empty geometry. -/
theorem serializer_envelope_rectangle_cex :
    docRingPoints (geometryJson [((3 : ℚ), (4 : ℚ))]) =
      some [(0, 0), (100, 0), (100, 100), (0, 100), (0, 0)] ∧
    specEnvelopeRect [((3 : ℚ), (4 : ℚ))] = [(3, 4), (3, 4), (3, 4), (3, 4), (3, 4)] ∧
    docRingPoints (geometryJson [((3 : ℚ), (4 : ℚ))]) ≠
      some (specEnvelopeRect [((3 : ℚ), (4 : ℚ))]) :=
  ⟨by decide, by decide, by decide⟩

/-- C9: a non-null geometry whose envelope exposes no exterior ring (the
envelope of a point or line) is serialized with the hard-coded default
bounds minX = 0, minY = 0, maxX = 100, maxY = 100. -/
theorem serializer_default_bounds (coords : List (ℚ × ℚ))
    (hdeg : geosEnvelopeView coords = .noRing) :
    geoJSONBounds coords = ⟨0, 0, 100, 100⟩ ∧
    docRingPoints (geometryJson coords) =
      some [(0, 0), (100, 0), (100, 100), (0, 100), (0, 0)] := by
  have hb : geoJSONBounds coords = ⟨0, 0, 100, 100⟩ := by
    unfold geoJSONBounds
    rw [hdeg]
  refine ⟨hb, ?_⟩
  rw [docRingPoints_geometryJson, hb]

/-- Witness for C9 on the single-point geometry (3,4). -/
theorem serializer_default_bounds_witness :
    geoJSONBounds [((3 : ℚ), (4 : ℚ))] = ⟨0, 0, 100, 100⟩ ∧
    docRingPoints (geometryJson [((3 : ℚ), (4 : ℚ))]) =
      some [(0, 0), (100, 0), (100, 100), (0, 100), (0, 0)] :=
  serializer_default_bounds [((3 : ℚ), (4 : ℚ))] (by decide)

/-- C8 counterexample: nlohmann json keeps object members in ascending key
order, so the top-level members serialize as features before type, not in
the claimed order type before features. -/
theorem output_key_order_cex :
    objKeys (geometryJson [((3 : ℚ), (4 : ℚ))]) = ["features", "type"] ∧
    (["features", "type"] : List String) ≠ ["type", "features"] :=
  ⟨rfl, by decide⟩

/-- C8 (amended): the document is serialized by dump with 4-space
indentation; member order is the ascending key order of the nlohmann json
std::map, features then type at the top level and geometry, properties,
type inside the feature (coordinates then type inside the geometry
object); every coordinate is a plain JSON number, never a string. -/
theorem output_formatting (rn : ℚ → String) (coords : List (ℚ × ℚ)) :
    geometryToGeoJSON rn (some coords) = dumpVal rn 4 0 (geometryJson coords) ∧
    objKeys (geometryJson coords) = ["features", "type"] ∧
    (∃ f, getField "features" (geometryJson coords) = some (.arr [f]) ∧
      objKeys f = ["geometry", "properties", "type"] ∧
      ∃ g, getField "geometry" f = some g ∧ objKeys g = ["coordinates", "type"]) ∧
    docRingPoints (geometryJson coords) =
      some [((geoJSONBounds coords).minX, (geoJSONBounds coords).minY),
            ((geoJSONBounds coords).maxX, (geoJSONBounds coords).minY),
            ((geoJSONBounds coords).maxX, (geoJSONBounds coords).maxY),
            ((geoJSONBounds coords).minX, (geoJSONBounds coords).maxY),
            ((geoJSONBounds coords).minX, (geoJSONBounds coords).minY)] :=
  ⟨rfl, rfl, ⟨_, rfl, rfl, _, rfl, rfl⟩, docRingPoints_geometryJson coords⟩

/-! ## Claim theorems: loading and pipeline driver -/

theorem findAlphaAux_none_iff (l : List GDALColorInterp) :
    ∀ i, findAlphaAux i l = none ↔ ∀ c ∈ l, c ≠ GDALColorInterp.alphaBand := by
  induction l with
  | nil =>
    intro i
    simp [findAlphaAux]
  | cons c rest ih =>
    intro i
    by_cases hc : c = GDALColorInterp.alphaBand
    · subst hc
      simp only [findAlphaAux, if_pos rfl]
      constructor
      · intro h
        exact Option.noConfusion h
      · intro h
        exact absurd rfl (h _ (List.mem_cons_self _ _))
    · simp only [findAlphaAux, if_neg hc]
      rw [ih (i + 1)]
      constructor
      · intro h d hd
        rcases List.mem_cons.mp hd with rfl | hd2
        · exact hc
        · exact h d hd2
      · intro h d hd
        exact h d (List.mem_cons_of_mem c hd)

theorem findAlphaAux_first (l : List GDALColorInterp) (j : Nat) :
    ∀ i, l[j]? = some GDALColorInterp.alphaBand →
      (∀ k, k < j → l[k]? ≠ some GDALColorInterp.alphaBand) →
      findAlphaAux i l = some (i + j) := by
  induction l generalizing j with
  | nil =>
    intro i hj _
    simp at hj
  | cons c rest ih =>
    intro i hj hmin
    cases j with
    | zero =>
      simp only [List.getElem?_cons_zero, Option.some.injEq] at hj
      simp [findAlphaAux, hj]
    | succ j =>
      have hc : c ≠ GDALColorInterp.alphaBand := by
        intro hc
        exact hmin 0 (Nat.succ_pos j) (by simp [hc])
      simp only [findAlphaAux, if_neg hc]
      have hrec := ih j (i + 1) (by simpa using hj)
        (fun k hk => by
          have hmk := hmin (k + 1) (Nat.succ_lt_succ hk)
          simpa using hmk)
      rw [hrec]
      congr 1
      omega

theorem mainRun_cases (rn : ℚ → String)
    (intersectFn : List (ℚ × ℚ) → List (ℚ × ℚ) → Option (List (ℚ × ℚ)))
    (fA fB : RasterFile) :
    mainRun rn intersectFn fA fB = ⟨1, none⟩ ∨
      (mainRun rn intersectFn fA fB).exitCode = 0 := by
  cases hA : loadRaster fA with
  | none => exact Or.inl (by simp [mainRun, hA])
  | some rA =>
    cases hB : loadRaster fB with
    | none => exact Or.inl (by simp [mainRun, hA, hB])
    | some rB =>
      cases hg1 : getValidGeometry rA with
      | none =>
        refine Or.inr ?_
        cases hg2 : getValidGeometry rB <;> simp [mainRun, hA, hB, hg1, hg2]
      | some g1 =>
        cases hg2 : getValidGeometry rB with
        | none => exact Or.inr (by simp [mainRun, hA, hB, hg1, hg2])
        | some g2 =>
          cases hi : intersectFn g1 g2 with
          | none => exact Or.inr (by simp [mainRun, hA, hB, hg1, hg2, hi])
          | some g =>
            cases g with
            | nil => exact Or.inr (by simp [mainRun, hA, hB, hg1, hg2, hi])
            | cons q rest => exact Or.inr (by simp [mainRun, hA, hB, hg1, hg2, hi])

/-- Raster file with one alpha band, every pixel opaque. -/
def fileAllOpaque : RasterFile :=
  ⟨true, 1, 1, [.alphaBand], fun _ _ => 255, true, none⟩

/-- Raster file with one alpha band, every pixel transparent. -/
def fileAllZero : RasterFile :=
  ⟨true, 1, 1, [.alphaBand], fun _ _ => 0, true, none⟩

/-- Raster file with two non-alpha bands, so no usable mask. -/
def fileNoMask : RasterFile :=
  ⟨true, 1, 1, [.otherBand 3, .otherBand 5], fun _ _ => 255, true, none⟩

/-- C1 (amended): when both rasters load but at least one mask scan finds
no valid pixel, main only reports which geometry is missing and falls
through to the final return 0 without writing any output document. -/
theorem pipeline_absent_polygon_no_document (rn : ℚ → String)
    (intersectFn : List (ℚ × ℚ) → List (ℚ × ℚ) → Option (List (ℚ × ℚ)))
    (fA fB : RasterFile) (rA rB : RasterState)
    (h1 : loadRaster fA = some rA) (h2 : loadRaster fB = some rB)
    (habs : getValidGeometry rA = none ∨ getValidGeometry rB = none) :
    mainRun rn intersectFn fA fB = ⟨0, none⟩ := by
  rcases habs with h | h
  · cases hg2 : getValidGeometry rB <;> simp [mainRun, h1, h2, h, hg2]
  · cases hg1 : getValidGeometry rA <;> simp [mainRun, h1, h2, h, hg1]

/-- Witness for amended C1: both concrete rasters load, the second has an
all-zero mask, and the run ends with exit 0 and no document. -/
theorem pipeline_absent_polygon_no_document_witness :
    mainRun (fun _ => "") (fun _ _ => none) fileAllOpaque fileAllZero = ⟨0, none⟩ :=
  pipeline_absent_polygon_no_document (fun _ => "") (fun _ _ => none)
    fileAllOpaque fileAllZero
    ⟨1, 1, fileAllOpaque.bandData 1, none⟩ ⟨1, 1, fileAllZero.bandData 1, none⟩
    rfl rfl (Or.inr rfl)

/-- C1 counterexample: both rasters load, the second mask is all zero, and
the pipeline finishes without writing any document, against the claim that
an empty-FeatureCollection document is always produced. -/
theorem pipeline_absent_polygon_no_document_cex :
    (loadRaster fileAllOpaque).isSome = true ∧
    (loadRaster fileAllZero).isSome = true ∧
    Option.map getValidGeometry (loadRaster fileAllZero) = some none ∧
    (mainRun (fun _ => "") (fun _ _ => none) fileAllOpaque fileAllZero).document = none :=
  ⟨rfl, rfl, rfl, rfl⟩

/-- C6 (amended): when both polygons exist and the intersection primitive
returns null or an empty geometry, the run is not aborted: the exit status
is 0 and the written document is the dump of the empty FeatureCollection,
whose text modulo whitespace lists features before type, in the ascending
key order of nlohmann json. -/
theorem empty_intersection_document (rn : ℚ → String)
    (intersectFn : List (ℚ × ℚ) → List (ℚ × ℚ) → Option (List (ℚ × ℚ)))
    (fA fB : RasterFile) (rA rB : RasterState) (g1 g2 : List (ℚ × ℚ))
    (h1 : loadRaster fA = some rA) (h2 : loadRaster fB = some rB)
    (hg1 : getValidGeometry rA = some g1) (hg2 : getValidGeometry rB = some g2)
    (hempty : intersectFn g1 g2 = none ∨ intersectFn g1 g2 = some []) :
    mainRun rn intersectFn fA fB = ⟨0, some (dumpVal rn 4 0 emptyFeatureCollection)⟩ ∧
    dumpVal rn 4 0 emptyFeatureCollection =
      "\x7b\n    \"features\": [],\n    \"type\": \"FeatureCollection\"\n\x7d" ∧
    stripWs (dumpVal rn 4 0 emptyFeatureCollection) =
      "\x7b\"features\":[],\"type\":\"FeatureCollection\"\x7d" := by
  refine ⟨?_, rfl, rfl⟩
  rcases hempty with h | h <;> simp [mainRun, h1, h2, hg1, hg2, h]

/-- Witness for amended C6 on two identical all-opaque rasters whose
intersection is reported empty by the collaborator. -/
theorem empty_intersection_document_witness :
    mainRun (fun _ => "") (fun _ _ => some []) fileAllOpaque fileAllOpaque =
      ⟨0, some (dumpVal (fun _ => "") 4 0 emptyFeatureCollection)⟩ ∧
    dumpVal (fun _ => "") 4 0 emptyFeatureCollection =
      "\x7b\n    \"features\": [],\n    \"type\": \"FeatureCollection\"\n\x7d" ∧
    stripWs (dumpVal (fun _ => "") 4 0 emptyFeatureCollection) =
      "\x7b\"features\":[],\"type\":\"FeatureCollection\"\x7d" :=
  empty_intersection_document (fun _ => "") (fun _ _ => some [])
    fileAllOpaque fileAllOpaque
    ⟨1, 1, fileAllOpaque.bandData 1, none⟩ ⟨1, 1, fileAllOpaque.bandData 1, none⟩
    (buildPolygon none 1 (0, 0, 0, 0)) (buildPolygon none 1 (0, 0, 0, 0))
    rfl rfl rfl rfl (Or.inr rfl)

/-- C6 counterexample: the concrete empty-intersection document, stripped
of whitespace, lists features before type, so it is not the claimed text
with type first even modulo whitespace. -/
theorem empty_intersection_document_cex :
    stripWs (((mainRun (fun _ => "") (fun _ _ => some [])
        fileAllOpaque fileAllOpaque).document).getD "") =
      "\x7b\"features\":[],\"type\":\"FeatureCollection\"\x7d" ∧
    ("\x7b\"features\":[],\"type\":\"FeatureCollection\"\x7d" : String) ≠
      "\x7b\"type\":\"FeatureCollection\",\"features\":[]\x7d" :=
  ⟨rfl, by decide⟩

/-- C7: the run exits non-zero with no document when either raster fails
to load; a raster with no alpha-interpreted band and fewer than 4 bands
fails to load exactly like a load failure; and whenever a document is
written the exit status is 0. -/
theorem exit_status_contract (rn : ℚ → String)
    (intersectFn : List (ℚ × ℚ) → List (ℚ × ℚ) → Option (List (ℚ × ℚ)))
    (fA fB : RasterFile) :
    (loadRaster fA = none ∨ loadRaster fB = none →
      (mainRun rn intersectFn fA fB).exitCode ≠ 0 ∧
      (mainRun rn intersectFn fA fB).document = none) ∧
    ((∀ c ∈ fA.bands, c ≠ GDALColorInterp.alphaBand) → fA.bands.length < 4 →
      loadRaster fA = none) ∧
    (∀ doc, (mainRun rn intersectFn fA fB).document = some doc →
      (mainRun rn intersectFn fA fB).exitCode = 0) := by
  refine ⟨?_, ?_, ?_⟩
  · intro habs
    have hrun : mainRun rn intersectFn fA fB = ⟨1, none⟩ := by
      rcases habs with h | h
      · simp [mainRun, h]
      · cases hA : loadRaster fA with
        | none => simp [mainRun, hA]
        | some rA => simp [mainRun, hA, h]
    rw [hrun]
    exact ⟨by decide, rfl⟩
  · intro hnone h4
    have hfa : findAlphaBand fA.bands = -1 := by
      unfold findAlphaBand
      rw [(findAlphaAux_none_iff fA.bands 1).mpr hnone]
      rw [if_neg (by omega)]
    simp [loadRaster, loadMaskData, hfa]
  · intro doc hdoc
    rcases mainRun_cases rn intersectFn fA fB with h | h
    · rw [h] at hdoc
      exact Option.noConfusion hdoc
    · exact h

/-- Witness for C7: a failed load gives exit 1 and no document, the
maskless 2-band raster fails to load, and a successful run that writes a
document exits with 0. -/
theorem exit_status_contract_witness :
    ((mainRun (fun _ => "") (fun _ _ => none) fileNoMask fileAllOpaque).exitCode ≠ 0 ∧
      (mainRun (fun _ => "") (fun _ _ => none) fileNoMask fileAllOpaque).document = none) ∧
    loadRaster fileNoMask = none ∧
    (mainRun (fun _ => "") (fun _ _ => some [((0 : ℚ), (0 : ℚ))])
      fileAllOpaque fileAllOpaque).exitCode = 0 :=
  ⟨(exit_status_contract (fun _ => "") (fun _ _ => none) fileNoMask fileAllOpaque).1
      (Or.inl rfl),
   (exit_status_contract (fun _ => "") (fun _ _ => none) fileNoMask fileAllOpaque).2.1
      (by decide) (by decide),
   (exit_status_contract (fun _ => "") (fun _ _ => some [((0 : ℚ), (0 : ℚ))])
      fileAllOpaque fileAllOpaque).2.2 _ rfl⟩

/-- C10: the mask band is the first band whose color interpretation is
alpha when one exists; otherwise the last band when there are at least 4
bands; only when neither condition holds does loading fail, and a failed
load of an opening, readable file implies neither condition held. -/
theorem alpha_band_selection (f : RasterFile) :
    (∀ j, f.bands[j]? = some GDALColorInterp.alphaBand →
      (∀ k, k < j → f.bands[k]? ≠ some GDALColorInterp.alphaBand) →
      findAlphaBand f.bands = ((j + 1 : Nat) : Int) ∧
      (f.opens = true → f.readOK = true →
        loadRaster f = some ⟨f.width, f.height, f.bandData (j + 1), f.geoTransform⟩)) ∧
    ((∀ c ∈ f.bands, c ≠ GDALColorInterp.alphaBand) → 4 ≤ f.bands.length →
      findAlphaBand f.bands = (f.bands.length : Int) ∧
      (f.opens = true → f.readOK = true →
        loadRaster f = some ⟨f.width, f.height, f.bandData f.bands.length, f.geoTransform⟩)) ∧
    ((∀ c ∈ f.bands, c ≠ GDALColorInterp.alphaBand) → f.bands.length < 4 →
      findAlphaBand f.bands = -1 ∧ loadRaster f = none) ∧
    (f.opens = true → f.readOK = true → loadRaster f = none →
      (∀ c ∈ f.bands, c ≠ GDALColorInterp.alphaBand) ∧ f.bands.length < 4) := by
  refine ⟨?_, ?_, ?_, ?_⟩
  · intro j hj hmin
    have hfa : findAlphaBand f.bands = ((j + 1 : Nat) : Int) := by
      unfold findAlphaBand
      rw [findAlphaAux_first f.bands j 1 hj hmin]
      norm_num
      omega
    refine ⟨hfa, ?_⟩
    intro hop hread
    have hne : ¬findAlphaBand f.bands = -1 := by
      rw [hfa]
      omega
    have htn : (findAlphaBand f.bands).toNat = j + 1 := by
      rw [hfa]
      exact Int.toNat_natCast (j + 1)
    unfold loadRaster loadMaskData
    rw [if_pos hop, if_neg hne, if_pos hread, htn]
  · intro hnone h4
    have hfa : findAlphaBand f.bands = (f.bands.length : Int) := by
      unfold findAlphaBand
      rw [(findAlphaAux_none_iff f.bands 1).mpr hnone]
      rw [if_pos h4]
    refine ⟨hfa, ?_⟩
    intro hop hread
    have hne : ¬findAlphaBand f.bands = -1 := by
      rw [hfa]
      omega
    have htn : (findAlphaBand f.bands).toNat = f.bands.length := by
      rw [hfa]
      exact Int.toNat_natCast f.bands.length
    unfold loadRaster loadMaskData
    rw [if_pos hop, if_neg hne, if_pos hread, htn]
  · intro hnone h4
    have hfa : findAlphaBand f.bands = -1 := by
      unfold findAlphaBand
      rw [(findAlphaAux_none_iff f.bands 1).mpr hnone]
      rw [if_neg (by omega)]
    exact ⟨hfa, by simp [loadRaster, loadMaskData, hfa]⟩
  · intro hop hread hfail
    have hfa : findAlphaBand f.bands = -1 := by
      by_contra hne
      have hload : ∃ m, loadMaskData f = some m := by
        unfold loadMaskData
        rw [if_neg hne, if_pos hread]
        exact ⟨_, rfl⟩
      obtain ⟨m, hm⟩ := hload
      unfold loadRaster at hfail
      rw [if_pos hop, hm] at hfail
      exact Option.noConfusion hfail
    unfold findAlphaBand at hfa
    cases haux : findAlphaAux 1 f.bands with
    | some i =>
      simp only [haux] at hfa
      exact absurd hfa (by omega)
    | none =>
      simp only [haux] at hfa
      refine ⟨(findAlphaAux_none_iff f.bands 1).mp haux, ?_⟩
      by_contra hge
      rw [if_pos (by omega)] at hfa
      have : (0 : Int) ≤ (f.bands.length : Int) := Int.natCast_nonneg _
      omega

/-- Raster file whose second band is the first alpha band. -/
def fileFirstAlpha : RasterFile :=
  ⟨true, 2, 2, [.otherBand 1, .alphaBand, .otherBand 2, .alphaBand], fun _ _ => 7, true, none⟩

/-- Raster file with four non-alpha bands. -/
def fileFourBands : RasterFile :=
  ⟨true, 2, 2, [.otherBand 1, .otherBand 2, .otherBand 3, .otherBand 4], fun _ _ => 9, true, none⟩

/-- Witness for C10: the first alpha band (band 2) is chosen, the 4-band
alpha-free raster uses its last band, and the maskless 2-band raster fails
to load. -/
theorem alpha_band_selection_witness :
    (findAlphaBand fileFirstAlpha.bands = ((2 : Nat) : Int) ∧
      loadRaster fileFirstAlpha = some ⟨fileFirstAlpha.width, fileFirstAlpha.height,
        fileFirstAlpha.bandData 2, fileFirstAlpha.geoTransform⟩) ∧
    (findAlphaBand fileFourBands.bands = ((4 : Nat) : Int) ∧
      loadRaster fileFourBands = some ⟨fileFourBands.width, fileFourBands.height,
        fileFourBands.bandData 4, fileFourBands.geoTransform⟩) ∧
    (findAlphaBand fileNoMask.bands = -1 ∧ loadRaster fileNoMask = none) := by
  refine ⟨?_, ?_, (alpha_band_selection fileNoMask).2.2.1 (by decide) (by decide)⟩
  · have h := (alpha_band_selection fileFirstAlpha).1 1 (by decide) (by decide)
    exact ⟨h.1, h.2 rfl rfl⟩
  · have h := (alpha_band_selection fileFourBands).2.1 (by decide) (by decide)
    exact ⟨h.1, h.2 rfl rfl⟩

end RasterOverlap
